import Mathlib

/-!
# zabbixctl: `handle_triggers.go`

A shallow embedding of `parseDateTime`, `parseParams`, `confirmAcknowledge` and
`handleTriggers`, followed by theorems about the query that is built and about the
acknowledge workflow.

Conventions of the embedding:

* a Go `error` value is an `Error`; a `nil` error is `none : Option Error`;
* a function returning `(T, error)` returns a pair `T × Option Error`: Go hands back
  both components, also when the error is not `nil`;
* a failed type assertion `x.(T)` panics: functions that assert return `Option`, and
  `none` is the panic;
* calls that leave the process (backend, terminal, log) are recorded, in order, as a list
  of `Event`s; what they answer comes from an `Env`.
-/

namespace Zabbixctl

/-! ## Data model -/

/-- A Go `error`: either a plain message (`fmt.Errorf`, or an error made by a library), or a
`hierr.Errorf(cause, message)` node that keeps the nested cause. -/
inductive Error where
  | message (msg : String)
  | hierr (cause : Error) (msg : String)
  deriving DecidableEq, Repr

/-- The dynamic values stored in a `Params` map (`map[string]interface{}`): the constructor
is the dynamic Go type. `params` is a nested `Params`. -/
inductive Value where
  | string (s : String)
  | int (n : Int)
  | int64 (n : Int)
  | strings (l : List String)
  | params (m : List (String × Value))

/-- The type `Params`, a Go map from string keys to dynamic values, kept as an association
list with at most one entry per key. -/
abbrev Params := List (String × Value)

/-- Map read `m[k]`; `none` when the key is absent. -/
def Params.lookup : Params → String → Option Value
  | [], _ => none
  | (k', v) :: rest, k => if k' = k then some v else Params.lookup rest k

/-- Map write `m[k] = v`: replaces the entry of `k` when there is one, adds it otherwise. -/
def Params.store : Params → String → Value → Params
  | [], k, v => [(k, v)]
  | (k', v') :: rest, k, v =>
    if k' = k then (k, v) :: rest else (k', v') :: Params.store rest k v

/-- The keys of a map. -/
def Params.keys (m : Params) : List String := m.map Prod.fst

/-- The pieces of a character list between occurrences of `sep`; always at least one
piece. -/
def splitChars (sep : Char) : List Char → List (List Char)
  | [] => [[]]
  | c :: cs =>
    if c = sep then [] :: splitChars sep cs
    else
      match splitChars sep cs with
      | [] => [[c]]
      | w :: ws => (c :: w) :: ws

/-- Go `strings.Split(s, sep)` for a one-character separator: the substrings of `s` between
the separators, `n + 1` of them when `sep` occurs `n` times. -/
def Split (s : String) (sep : Char) : List String :=
  (splitChars sep s.data).map String.mk

/-- Go `strings.Join(elems, sep)`. -/
def Join : List String → String → String
  | [], _ => ""
  | [a], _ => a
  | a :: b :: rest, sep => a ++ sep ++ Join (b :: rest) sep

/-- A value of the command line map `args` (`map[string]interface{}` filled by docopt);
`null` is the `nil` interface, which is also what reading a missing key gives. -/
inductive Arg where
  | null
  | bool (b : Bool)
  | int (n : Int)
  | string (s : String)
  | strings (l : List String)
  deriving DecidableEq, Repr

/-- The command line map: reading a key always answers (a missing key reads as `nil`). -/
abbrev Args := String → Arg

/-- Type assertion `x.(bool)`; `none` is the panic. -/
def Arg.assertBool : Arg → Option Bool
  | .bool b => some b
  | _ => none

/-- Type assertion `x.(int)`; `none` is the panic. -/
def Arg.assertInt : Arg → Option Int
  | .int n => some n
  | _ => none

/-- Type assertion `x.(string)`; `none` is the panic. -/
def Arg.assertString : Arg → Option String
  | .string s => some s
  | _ => none

/-- Type assertion `x.([]string)`; `none` is the panic. -/
def Arg.assertStrings : Arg → Option (List String)
  | .strings l => some l
  | _ => none

/-- The two-valued assertion `s, _ = x.(string)`: never panics, gives `""` when `x` is not
a string. -/
def Arg.stringOrZero : Arg → String
  | .string s => s
  | _ => ""

/-- A `time.Time`, observed only through `Unix()`. -/
structure Time where
  Unix : Int
  deriving DecidableEq, Repr

/-- A trigger as fetched from the backend. The type is declared outside this file; the
record keeps the fields read here (`LastEvent.ID`, `Hostname`, `Description`) and what
the methods called here return, as rendered by `%s`. -/
structure Trigger where
  LastEventID : String
  Hostname : String
  Description : String
  DateTime : String
  Severity : String
  StatusProblem : String
  StatusAcknowledge : String
  String : String
  deriving DecidableEq, Repr

/-- A call that leaves the process, as recorded in the trace of a run. -/
inductive Event where
  | getTriggers (params : Params)
  | debug (line : String)
  | tableWrite (row : String)
  | tableFlush
  | stderr (text : String)
  | scanln
  | acknowledge (identifiers : List String)

/-- Whether the event reads the confirmation from standard input. -/
def Event.isScanln : Event → Bool
  | .scanln => true
  | _ => false

/-- What is outside this file and what the world answers during one run: the helpers
`parseSearchQuery` and `matchPattern`, the library `timeutils.ParseDateString`, the two
backend calls, the result of flushing the table (given the rows written), and what is
waiting on standard input when the confirmation is read (the line the user types, with its
newline, and whatever follows). -/
structure Env where
  parseSearchQuery : List String → List String × String
  matchPattern : String → String → Bool
  ParseDateString : String → Except Error Time
  GetTriggers : Params → Except Error (List Trigger)
  Acknowledge : List String → Option Error
  Flush : List String → Option Error
  Stdin : String

/-! ## The functions of `handle_triggers.go` -/

/-- The function `parseDateTime`. -/
def parseDateTime (env : Env) (value : String) : Int × Option Error :=
  match env.ParseDateString value with
  | .error err => (0, some (Error.hierr err ("can't parse datetime '" ++ value ++ "'")))
  | .ok date => (date.Unix, none)

/-- The function `parseParams`. -/
def parseParams (env : Env) (args : Args) : Option (Params × Option Error) := do
  let severity ← (args "--severity").assertInt
  let onlyNotAck ← (args "--only-nack").assertBool
  let maintenance ← (args "--maintenance").assertBool
  let problem ← (args "--problem").assertBool
  let recent ← (args "--recent").assertBool
  let since := (args "--since").stringOrZero
  let until_ := (args "--until").stringOrZero
  let sort := Split (← (args "--sort").assertString) ','
  let order ← (args "--order").assertString
  let limit ← (args "--limit").assertString
  let params : Params :=
    [ ("sortfield", Value.strings sort),
      ("sortorder", Value.string order),
      ("min_severity", Value.int severity),
      ("limit", Value.string limit) ]
  let params := if onlyNotAck then
    params.store "withLastEventUnacknowledged" (Value.string "1") else params
  let params := if maintenance then params.store "maintenance" (Value.string "1") else params
  let params := if recent then params.store "only_true" (Value.string "1") else params
  let params := if problem then
    params.store "filter" (Value.params [("value", Value.string "1")]) else params
  if until_ ≠ "" then
    let r := parseDateTime env until_
    pure (params.store "lastChangeTill" (Value.int64 r.1), r.2)
  else if since ≠ "" then
    let r := parseDateTime env since
    pure (params.store "lastChangeSince" (Value.int64 r.1), r.2)
  else
    pure (params, none)

/-- One table row: `fmt.Fprintf(table, "%s\t%s\t%s\t%s\t%s\t%s\t%s\n", ...)`. -/
def tableRow (trigger : Trigger) : String :=
  trigger.LastEventID ++ "\t" ++ trigger.DateTime ++ "\t" ++ trigger.Severity ++ "\t" ++
    trigger.StatusProblem ++ "\t" ++ trigger.StatusAcknowledge ++ "\t" ++
    trigger.Hostname ++ "\t" ++ trigger.Description ++ "\n"

/-- The loop `for _, trigger := range triggers` of `handleTriggers`: the state is the rows
written to the table so far and the slice `identifiers`. -/
def filterLoop (env : Env) (pattern : String) :
    List Trigger → List String × List String → List String × List String
  | [], state => state
  | trigger :: rest, (rows, identifiers) =>
    if pattern ≠ "" && !env.matchPattern pattern trigger.String then
      filterLoop env pattern rest (rows, identifiers)
    else
      filterLoop env pattern rest
        (rows ++ [tableRow trigger], identifiers ++ [trigger.LastEventID])

/-- Go `fmt`, `isSpace`: the runes a scan takes for white space (the table `space`). -/
def isSpace (r : Char) : Bool :=
  (0x0009 ≤ r.toNat && r.toNat ≤ 0x000d) || r.toNat == 0x0020 || r.toNat == 0x0085 ||
    r.toNat == 0x00a0 || r.toNat == 0x1680 || (0x2000 ≤ r.toNat && r.toNat ≤ 0x200a) ||
    (0x2028 ≤ r.toNat && r.toNat ≤ 0x2029) || r.toNat == 0x202f || r.toNat == 0x205f ||
    r.toNat == 0x3000

/-- Go `fmt`, `SkipSpace` in a `Scanln` scan: white space is skipped up to the first other
rune; meeting a newline first is the error `unexpected newline`, here `none`. (A `\r` is
white space, so `\r\n` ends in the same error.) -/
def skipSpace : List Char → Option (List Char)
  | [] => some []
  | r :: rest =>
    if r = '\n' then none
    else if isSpace r then skipSpace rest
    else some (r :: rest)

/-- Go `fmt.Scanln(&value)` for a string `value` that starts as `""`: what `value` holds
afterwards, given the pending input. White space is skipped, then the next word (the runes
up to the next white space) is stored. On an empty or blank line (`unexpected newline`)
and at the end of the input (`unexpected EOF`) nothing is stored. Anything after the word is
not stored either: it only makes the error `expected newline`, and the error that
`Scanln` returns is dropped by `confirmAcknowledge`. -/
def Scanln (stdin : String) : String :=
  match skipSpace stdin.data with
  | none => ""
  | some [] => ""
  | some (r :: rest) => String.mk ((r :: rest).takeWhile fun c => !isSpace c)

/-- The line the user types: the pending input up to its first newline. -/
def firstLine (stdin : String) : String :=
  String.mk (stdin.data.takeWhile fun c => decide (c ≠ '\n'))

/-- The function `confirmAcknowledge`: the prompt, the read, and the answer. -/
def confirmAcknowledge (env : Env) : List Event × Bool :=
  let value := Scanln env.Stdin
  ([Event.stderr "\n:: Proceed with acknowledge? [Y/n]: ", Event.scanln],
    decide (value = "") || decide (value = "Y") || decide (value = "y"))

/-- The tail of `handleTriggers` from `zabbix.Acknowledge(identifiers)` on. -/
def acknowledgeStep (env : Env) (trace : List Event) (identifiers : List String) :
    List Event × Option Error :=
  match env.Acknowledge identifiers with
  | some err => (trace ++ [Event.acknowledge identifiers], some err)
  | none =>
    (trace ++ [Event.acknowledge identifiers, Event.stderr ":: Acknowledged\n"], none)

/-- The trace of `handleTriggers` from the call of `GetTriggers` up to `table.Flush()`,
when the fetch succeeded and `rows` were written. -/
def renderTrace (pattern : String) (params : Params) (rows : List String) : List Event :=
  [Event.getTriggers params, Event.debug "* showing triggers table"] ++
    (if pattern ≠ "" then [Event.debug ("** searching " ++ pattern)] else []) ++
    rows.map Event.tableWrite ++ [Event.tableFlush]

/-- The tail of `handleTriggers` after the table was flushed: the test
`!acknowledge || len(identifiers) == 0`, the confirmation, the acknowledge call. `trace` is
the trace so far. -/
def decideStage (env : Env) (acknowledge confirmation : Bool) (trace : List Event)
    (identifiers : List String) : List Event × Option Error :=
  if !acknowledge || identifiers.length == 0 then
    (trace, none)
  else if confirmation then
    let (asked, ok) := confirmAcknowledge env
    if !ok then (trace ++ asked, none)
    else acknowledgeStep env (trace ++ asked) identifiers
  else
    acknowledgeStep env trace identifiers

/-- The function `handleTriggers`: the trace of the run and the error returned; `none` is a
panic in a type assertion (all assertions come before the first event). -/
def handleTriggers (env : Env) (args : Args) : Option (List Event × Option Error) := do
  let acknowledge ← (args "--acknowledge").assertBool
  let (words, pattern) := env.parseSearchQuery (← (args "<pattern>").assertStrings)
  let confirmation := !(← (args "--noconfirm").assertBool)
  match words with
  | word :: _ =>
    pure ([], some (Error.message
      ("unexpected command line token '" ++ word ++ "', " ++
        "use '/" ++ word ++ "' for searching triggers")))
  | [] =>
    let (params, err) ← parseParams env args
    match err with
    | some err => pure ([], some err)
    | none =>
      match env.GetTriggers params with
      | .error err =>
        pure ([Event.getTriggers params], some (Error.hierr err "can't obtain zabbix triggers"))
      | .ok triggers =>
        let (rows, identifiers) := filterLoop env pattern triggers ([], [])
        let trace := renderTrace pattern params rows
        match env.Flush rows with
        | some err => pure (trace, some err)
        | none => pure (decideStage env acknowledge confirmation trace identifiers)

/-! ## Typed option records -/

/-- The options as docopt delivers them for this command, each with its type. An option that
takes a value and was not given (`since`, `until`) is `none`. -/
structure Options where
  acknowledge : Bool
  noconfirm : Bool
  severity : Int
  onlyNack : Bool
  maintenance : Bool
  problem : Bool
  recent : Bool
  since : Option String
  until_ : Option String
  sort : String
  order : String
  limit : String
  patternTokens : List String
  deriving DecidableEq, Repr

/-- An optional string as a map value: `nil` when absent. -/
def Arg.ofOptionalString : Option String → Arg
  | none => Arg.null
  | some s => Arg.string s

/-- The `args` map of an options record. -/
def Options.toArgs (opts : Options) : Args := fun key =>
  if key = "--acknowledge" then Arg.bool opts.acknowledge
  else if key = "--noconfirm" then Arg.bool opts.noconfirm
  else if key = "--severity" then Arg.int opts.severity
  else if key = "--only-nack" then Arg.bool opts.onlyNack
  else if key = "--maintenance" then Arg.bool opts.maintenance
  else if key = "--problem" then Arg.bool opts.problem
  else if key = "--recent" then Arg.bool opts.recent
  else if key = "--since" then Arg.ofOptionalString opts.since
  else if key = "--until" then Arg.ofOptionalString opts.until_
  else if key = "--sort" then Arg.string opts.sort
  else if key = "--order" then Arg.string opts.order
  else if key = "--limit" then Arg.string opts.limit
  else if key = "<pattern>" then Arg.strings opts.patternTokens
  else Arg.null

/-- The string the code reads for an optional option: `""` when it was not given. -/
def Options.text : Option String → String
  | none => ""
  | some s => s

/-- The map `parseParams` has built when it reaches the time window: the four keys of the
literal, then one write per flag that is set. -/
def flagParams (opts : Options) : Params :=
  let params : Params :=
    [ ("sortfield", Value.strings (Split opts.sort ',')),
      ("sortorder", Value.string opts.order),
      ("min_severity", Value.int opts.severity),
      ("limit", Value.string opts.limit) ]
  let params := if opts.onlyNack then
    params.store "withLastEventUnacknowledged" (Value.string "1") else params
  let params := if opts.maintenance then
    params.store "maintenance" (Value.string "1") else params
  let params := if opts.recent then params.store "only_true" (Value.string "1") else params
  if opts.problem then
    params.store "filter" (Value.params [("value", Value.string "1")]) else params

/-! ## Reading a trace -/

/-- The identifier lists passed to `zabbix.Acknowledge` during a run, one per call. -/
def acknowledgeCalls (trace : List Event) : List (List String) :=
  trace.filterMap fun
    | Event.acknowledge identifiers => some identifiers
    | _ => none

/-- The rows written to the table during a run. -/
def rowsWritten (trace : List Event) : List String :=
  trace.filterMap fun
    | Event.tableWrite row => some row
    | _ => none

/-- How many times the confirmation was read from standard input during a run. -/
def confirmationReads (trace : List Event) : Nat :=
  (trace.filter Event.isScanln).length

/-- The slice `identifiers` when the loop of `handleTriggers` ends (the MatchSet). -/
def matchSet (env : Env) (pattern : String) (triggers : List Trigger) : List String :=
  (filterLoop env pattern triggers ([], [])).2

/-- The rows the loop of `handleTriggers` has written when it ends. -/
def loopRows (env : Env) (pattern : String) (triggers : List Trigger) : List String :=
  (filterLoop env pattern triggers ([], [])).1

/-- Whether `confirmAcknowledge` takes the value read as a yes. -/
def affirmative (value : String) : Prop :=
  value = "" ∨ value = "Y" ∨ value = "y"

instance (value : String) : Decidable (affirmative value) := by
  unfold affirmative
  infer_instance

/-! ## Sample runs

Concrete environments and option records on which the theorems below are instantiated. -/

/-- The literal words of a token list: the tokens that do not start with `/`. -/
def sampleWords : List String → List String
  | [] => []
  | token :: rest =>
    match token.data with
    | '/' :: _ => sampleWords rest
    | _ => token :: sampleWords rest

/-- The pattern of a token list: the first token that starts with `/`, without the `/`. -/
def samplePattern : List String → String
  | [] => ""
  | token :: rest =>
    match token.data with
    | '/' :: cs => String.mk cs
    | _ => samplePattern rest

/-- Three triggers, two of them on hosts named `db`, two sharing one event identifier. -/
def sampleTriggers : List Trigger :=
  [ { LastEventID := "101", Hostname := "db1", Description := "disk full",
      DateTime := "2016-01-01 10:00:00", Severity := "HIGH", StatusProblem := "PROBLEM",
      StatusAcknowledge := "NACK", String := "db1 disk full" },
    { LastEventID := "102", Hostname := "web1", Description := "load",
      DateTime := "2016-01-01 10:05:00", Severity := "WARN", StatusProblem := "PROBLEM",
      StatusAcknowledge := "NACK", String := "web1 load" },
    { LastEventID := "101", Hostname := "db2", Description := "disk full",
      DateTime := "2016-01-01 10:07:00", Severity := "HIGH", StatusProblem := "PROBLEM",
      StatusAcknowledge := "NACK", String := "db2 disk full" } ]

/-- A world where everything works: one date string is understood, the backend answers
`sampleTriggers`, the pattern is matched as a substring, and the user types `y` and the
return key. -/
def sampleEnv : Env where
  parseSearchQuery := fun tokens => (sampleWords tokens, samplePattern tokens)
  matchPattern := fun pattern subject => decide (pattern.data <:+: subject.data)
  ParseDateString := fun value =>
    if value = "1970-01-02" then .ok { Unix := 86400 }
    else .error (Error.message "unknown date format")
  GetTriggers := fun _ => .ok sampleTriggers
  Acknowledge := fun _ => none
  Flush := fun _ => none
  Stdin := "y\n"

/-- The sample world with a user who types `n`. -/
def decliningEnv : Env := { sampleEnv with Stdin := "n\n" }

/-- The sample world with a user who types `y n`. -/
def twoWordsEnv : Env := { sampleEnv with Stdin := "y n\n" }

/-- The sample world with a user who types a blank, then `y`. -/
def leadingBlankEnv : Env := { sampleEnv with Stdin := " y\n" }

/-- The sample world with a closed standard output: flushing the table fails. -/
def closedOutputEnv : Env :=
  { sampleEnv with Flush := fun _ => some (Error.message "write /dev/stdout: broken pipe") }

/-- The sample world with a backend that cannot be reached. -/
def unreachableEnv : Env :=
  { sampleEnv with GetTriggers := fun _ => .error (Error.message "connection refused") }

/-- A plain listing: no flag, no date, no pattern. -/
def sampleOptions : Options where
  acknowledge := false
  noconfirm := false
  severity := 3
  onlyNack := false
  maintenance := false
  problem := false
  recent := false
  since := none
  until_ := none
  sort := "lastchange,priority"
  order := "DESC"
  limit := "0"
  patternTokens := []

/-- Both dates given: `--until` is understood, `--since` is not a date. -/
def bothDatesOptions : Options :=
  { sampleOptions with since := some "not-a-date", until_ := some "1970-01-02" }

/-- Only `--since` given, and understood. -/
def sinceOnlyOptions : Options :=
  { sampleOptions with since := some "1970-01-02" }

/-- A `--until` that is not a date. -/
def badUntilOptions : Options :=
  { sampleOptions with until_ := some "not-a-date", onlyNack := true }

/-- Acknowledge what matches `/db`, after asking. -/
def acknowledgeOptions : Options :=
  { sampleOptions with acknowledge := true, patternTokens := ["/db"] }

/-- Acknowledge everything without asking. -/
def forcedAcknowledgeOptions : Options :=
  { sampleOptions with acknowledge := true, noconfirm := true }

/-- Acknowledge what matches `/zz`: no trigger does. -/
def noMatchOptions : Options :=
  { sampleOptions with acknowledge := true, noconfirm := true, patternTokens := ["/zz"] }

/-- A command line with a stray word next to `--acknowledge`; the map holds nothing but the
three keys `handleTriggers` reads first, so `parseParams` would panic on it. -/
def strayWordArgs : Args := fun key =>
  if key = "--acknowledge" then Arg.bool true
  else if key = "<pattern>" then Arg.strings ["disk", "/db"]
  else if key = "--noconfirm" then Arg.bool false
  else Arg.null

/-- The trace of `handleTriggers` in the sample world for `acknowledgeOptions`: the two
triggers on `db` hosts are listed, the user is asked, and their event identifiers are
acknowledged. -/
def sampleRun : List Event :=
  renderTrace "db" (flagParams acknowledgeOptions) (loopRows sampleEnv "db" sampleTriggers) ++
    [ Event.stderr "\n:: Proceed with acknowledge? [Y/n]: ", Event.scanln,
      Event.acknowledge ["101", "101"], Event.stderr ":: Acknowledged\n" ]

/-! ## Lemmas: the map, splitting, the query -/

theorem Params.lookup_store_self (m : Params) (k : String) (v : Value) :
    (m.store k v).lookup k = some v := by
  induction m with
  | nil => simp [Params.store, Params.lookup]
  | cons p rest ih =>
    obtain ⟨k', v'⟩ := p
    by_cases h : k' = k
    · simp [Params.store, Params.lookup, h]
    · simp [Params.store, Params.lookup, h, ih]

theorem Params.lookup_store_ne (m : Params) (k k' : String) (v : Value) (h : k ≠ k') :
    (m.store k v).lookup k' = m.lookup k' := by
  induction m with
  | nil => simp [Params.store, Params.lookup, h]
  | cons p rest ih =>
    obtain ⟨k₀, v₀⟩ := p
    by_cases h₀ : k₀ = k
    · subst h₀
      simp [Params.store, Params.lookup, h]
    · by_cases h₁ : k₀ = k'
      · subst h₁
        simp [Params.store, Params.lookup, h₀]
      · simp [Params.store, Params.lookup, h₀, h₁, ih]

theorem Params.keys_store (m : Params) (k : String) (v : Value) (x : String)
    (hx : x ∈ (m.store k v).keys) : x = k ∨ x ∈ m.keys := by
  induction m with
  | nil => simpa [Params.store, Params.keys] using hx
  | cons p rest ih =>
    obtain ⟨k₀, v₀⟩ := p
    by_cases h₀ : k₀ = k
    · simp only [Params.store, h₀, if_true, Params.keys, List.map_cons, List.mem_cons] at hx ⊢
      tauto
    · simp only [Params.store, h₀, if_false, Params.keys, List.map_cons, List.mem_cons] at hx ⊢
      rcases hx with hx | hx
      · exact Or.inr (Or.inl hx)
      · rcases ih hx with h | h
        · exact Or.inl h
        · exact Or.inr (Or.inr h)

theorem Params.mem_keys_of_lookup (m : Params) (k : String) (h : m.lookup k ≠ none) :
    k ∈ m.keys := by
  induction m with
  | nil => simp [Params.lookup] at h
  | cons p rest ih =>
    obtain ⟨k₀, v₀⟩ := p
    by_cases h₀ : k₀ = k
    · simp [Params.keys, h₀]
    · simp [Params.lookup, h₀] at h
      have := ih h
      simp [Params.keys] at this ⊢
      exact Or.inr this

theorem splitChars_ne_nil (sep : Char) (l : List Char) : splitChars sep l ≠ [] := by
  cases l with
  | nil => simp [splitChars]
  | cons c cs =>
    by_cases h : c = sep
    · simp [splitChars, h]
    · simp only [splitChars, h, if_false]
      split <;> simp

theorem Join_data_cons (a : String) (rest : List String) (sep : String) :
    (Join (a :: rest) sep).data =
      a.data ++ (match rest with
        | [] => []
        | b :: more => sep.data ++ (Join (b :: more) sep).data) := by
  cases rest with
  | nil => simp [Join]
  | cons b more => simp [Join, String.data_append]

theorem Join_splitChars (sep : Char) (l : List Char) :
    (Join ((splitChars sep l).map String.mk) (String.singleton sep)).data = l := by
  induction l with
  | nil => simp [splitChars, Join]
  | cons c cs ih =>
    by_cases h : c = sep
    · simp only [splitChars, h, if_true, List.map_cons]
      rcases hs : splitChars sep cs with _ | ⟨w, ws⟩
      · exact absurd hs (splitChars_ne_nil sep cs)
      · rw [hs] at ih
        rw [List.map_cons] at ih ⊢
        rw [Join_data_cons]
        simp only [List.nil_append]
        rw [ih]
        rfl
    · simp only [splitChars, h, if_false]
      rcases hs : splitChars sep cs with _ | ⟨w, ws⟩
      · exact absurd hs (splitChars_ne_nil sep cs)
      · rw [hs] at ih
        simp only [List.map_cons] at ih ⊢
        rw [Join_data_cons] at ih ⊢
        simp only [List.cons_append]
        rw [ih]

theorem Join_Split (s : String) (sep : Char) :
    Join (Split s sep) (String.singleton sep) = s := by
  apply String.ext
  exact Join_splitChars sep s.data

theorem splitChars_not_mem (sep : Char) (l : List Char) :
    ∀ piece ∈ splitChars sep l, sep ∉ piece := by
  induction l with
  | nil => simp [splitChars]
  | cons c cs ih =>
    by_cases h : c = sep
    · simp only [splitChars, h, if_true, List.mem_cons]
      rintro piece (rfl | hp)
      · simp
      · exact ih piece hp
    · simp only [splitChars, h, if_false]
      rcases hs : splitChars sep cs with _ | ⟨w, ws⟩
      · exact absurd hs (splitChars_ne_nil sep cs)
      · rw [hs] at ih
        simp only [List.mem_cons]
        rintro piece (rfl | hp)
        · have hw := ih w (by simp)
          simp only [List.mem_cons, not_or]
          exact ⟨fun e => h e.symm, hw⟩
        · exact ih piece (by simp [hp])

theorem Split_not_mem (s : String) (sep : Char) :
    ∀ piece ∈ Split s sep, sep ∉ piece.data := by
  intro piece hp
  simp only [Split, List.mem_map] at hp
  obtain ⟨cs, hcs, rfl⟩ := hp
  exact splitChars_not_mem sep s.data cs hcs

theorem stringOrZero_ofOptionalString (o : Option String) :
    (Arg.ofOptionalString o).stringOrZero = Options.text o := by
  cases o <;> rfl

theorem parseParams_toArgs (env : Env) (opts : Options) :
    parseParams env opts.toArgs = some (
      if Options.text opts.until_ ≠ "" then
        ((flagParams opts).store "lastChangeTill"
            (Value.int64 (parseDateTime env (Options.text opts.until_)).1),
          (parseDateTime env (Options.text opts.until_)).2)
      else if Options.text opts.since ≠ "" then
        ((flagParams opts).store "lastChangeSince"
            (Value.int64 (parseDateTime env (Options.text opts.since)).1),
          (parseDateTime env (Options.text opts.since)).2)
      else (flagParams opts, none)) := by
  simp only [parseParams, Options.toArgs, flagParams]
  simp [Arg.assertInt, Arg.assertBool, Arg.assertString, stringOrZero_ofOptionalString]
  split_ifs <;> rfl

/-- The three shapes of the map `parseParams` returns. -/
theorem parseParams_cases (env : Env) (opts : Options) :
    ∃ params err, parseParams env opts.toArgs = some (params, err) ∧
      (params = flagParams opts ∨
        (∃ v, params = (flagParams opts).store "lastChangeTill" v) ∨
        (∃ v, params = (flagParams opts).store "lastChangeSince" v)) := by
  rw [parseParams_toArgs]
  by_cases hu : Options.text opts.until_ ≠ ""
  · rw [if_pos hu]
    exact ⟨_, _, rfl, Or.inr (Or.inl ⟨_, rfl⟩)⟩
  · rw [if_neg hu]
    by_cases hs : Options.text opts.since ≠ ""
    · rw [if_pos hs]
      exact ⟨_, _, rfl, Or.inr (Or.inr ⟨_, rfl⟩)⟩
    · rw [if_neg hs]
      exact ⟨_, _, rfl, Or.inl rfl⟩

theorem flagParams_lookup (opts : Options) :
    (flagParams opts).lookup "sortfield" = some (Value.strings (Split opts.sort ',')) ∧
    (flagParams opts).lookup "sortorder" = some (Value.string opts.order) ∧
    (flagParams opts).lookup "min_severity" = some (Value.int opts.severity) ∧
    (flagParams opts).lookup "limit" = some (Value.string opts.limit) ∧
    (flagParams opts).lookup "withLastEventUnacknowledged" =
      (if opts.onlyNack then some (Value.string "1") else none) ∧
    (flagParams opts).lookup "maintenance" =
      (if opts.maintenance then some (Value.string "1") else none) ∧
    (flagParams opts).lookup "only_true" =
      (if opts.recent then some (Value.string "1") else none) ∧
    (flagParams opts).lookup "filter" =
      (if opts.problem then some (Value.params [("value", Value.string "1")]) else none) ∧
    (flagParams opts).lookup "lastChangeTill" = none ∧
    (flagParams opts).lookup "lastChangeSince" = none := by
  obtain ⟨a, b, c, n, m, p, r, s, u, so, o, l, pt⟩ := opts
  cases n <;> cases m <;> cases p <;> cases r <;>
    simp [flagParams, Params.store, Params.lookup]

theorem flagParams_keys (opts : Options) (k : String) (hk : k ∈ (flagParams opts).keys) :
    k ∈ ["sortfield", "sortorder", "min_severity", "limit", "withLastEventUnacknowledged",
      "maintenance", "only_true", "filter"] := by
  obtain ⟨a, b, c, n, m, p, r, s, u, so, o, l, pt⟩ := opts
  cases n <;> cases m <;> cases p <;> cases r <;>
    simp [flagParams, Params.store, Params.keys] at hk ⊢ <;> tauto

/-- The triggers the loop keeps. -/
theorem filterLoop_eq (env : Env) (pattern : String) (triggers : List Trigger)
    (rows identifiers : List String) :
    filterLoop env pattern triggers (rows, identifiers) =
      (rows ++ (triggers.filter
          (fun t => decide (pattern = "") || env.matchPattern pattern t.String)).map tableRow,
        identifiers ++ (triggers.filter
          (fun t => decide (pattern = "") || env.matchPattern pattern t.String)).map
            Trigger.LastEventID) := by
  induction triggers generalizing rows identifiers with
  | nil => simp [filterLoop]
  | cons t rest ih =>
    by_cases hp : pattern = ""
    · subst hp
      simp [filterLoop, ih]
    · cases hm : env.matchPattern pattern t.String
      · simp [filterLoop, hp, hm, ih]
      · simp [filterLoop, hp, hm, ih]

theorem handleTriggers_fetched (env : Env) (opts : Options) (params : Params)
    (triggers : List Trigger)
    (hw : (env.parseSearchQuery opts.patternTokens).1 = [])
    (hp : parseParams env opts.toArgs = some (params, none))
    (hf : env.GetTriggers params = .ok triggers) :
    handleTriggers env opts.toArgs = some (
      match env.Flush (filterLoop env (env.parseSearchQuery opts.patternTokens).2 triggers ([], [])).1
      with
      | some err =>
        (renderTrace (env.parseSearchQuery opts.patternTokens).2 params
          (filterLoop env (env.parseSearchQuery opts.patternTokens).2 triggers ([], [])).1, some err)
      | none =>
        decideStage env opts.acknowledge (!opts.noconfirm)
          (renderTrace (env.parseSearchQuery opts.patternTokens).2 params
            (filterLoop env (env.parseSearchQuery opts.patternTokens).2 triggers ([], [])).1)
          (filterLoop env (env.parseSearchQuery opts.patternTokens).2 triggers ([], [])).2) := by
  rcases hq : env.parseSearchQuery opts.patternTokens with ⟨words, pattern⟩
  rw [hq] at hw
  simp only at hw
  subst hw
  simp only [handleTriggers, hp]
  simp [Options.toArgs, Arg.assertBool, Arg.assertStrings, hq, hf]
  split <;> simp_all

/-! ## The acknowledge workflow: lemmas -/

theorem acknowledgeCalls_append (a b : List Event) :
    acknowledgeCalls (a ++ b) = acknowledgeCalls a ++ acknowledgeCalls b := by
  simp [acknowledgeCalls, List.filterMap_append]

theorem rowsWritten_append (a b : List Event) :
    rowsWritten (a ++ b) = rowsWritten a ++ rowsWritten b := by
  simp [rowsWritten, List.filterMap_append]

theorem confirmationReads_append (a b : List Event) :
    confirmationReads (a ++ b) = confirmationReads a + confirmationReads b := by
  simp [confirmationReads, List.filter_append]

theorem acknowledgeCalls_tableWrite (rows : List String) :
    acknowledgeCalls (rows.map Event.tableWrite) = [] := by
  induction rows with
  | nil => rfl
  | cons r rest ih =>
    show acknowledgeCalls (rest.map Event.tableWrite) = []
    exact ih

theorem acknowledgeCalls_prompt (text : String) :
    acknowledgeCalls [Event.stderr text, Event.scanln] = [] := rfl

theorem confirmationReads_tableWrite (rows : List String) :
    confirmationReads (rows.map Event.tableWrite) = 0 := by
  induction rows with
  | nil => rfl
  | cons r rest ih =>
    show confirmationReads (rest.map Event.tableWrite) = 0
    exact ih

theorem rowsWritten_tableWrite (rows : List String) :
    rowsWritten (rows.map Event.tableWrite) = rows := by
  induction rows with
  | nil => rfl
  | cons r rest ih =>
    show r :: rowsWritten (rest.map Event.tableWrite) = r :: rest
    rw [ih]

theorem renderTrace_acknowledgeCalls (pattern : String) (params : Params)
    (rows : List String) : acknowledgeCalls (renderTrace pattern params rows) = [] := by
  unfold renderTrace
  rw [acknowledgeCalls_append, acknowledgeCalls_append, acknowledgeCalls_append,
    acknowledgeCalls_tableWrite]
  split_ifs <;> simp [acknowledgeCalls]

theorem renderTrace_confirmationReads (pattern : String) (params : Params)
    (rows : List String) : confirmationReads (renderTrace pattern params rows) = 0 := by
  unfold renderTrace
  rw [confirmationReads_append, confirmationReads_append, confirmationReads_append,
    confirmationReads_tableWrite]
  split_ifs <;> simp [confirmationReads, Event.isScanln]

theorem renderTrace_rowsWritten (pattern : String) (params : Params)
    (rows : List String) : rowsWritten (renderTrace pattern params rows) = rows := by
  unfold renderTrace
  rw [rowsWritten_append, rowsWritten_append, rowsWritten_append, rowsWritten_tableWrite]
  split_ifs <;> simp [rowsWritten]

theorem acknowledgeStep_calls (env : Env) (trace : List Event) (identifiers : List String) :
    acknowledgeCalls (acknowledgeStep env trace identifiers).1 =
      acknowledgeCalls trace ++ [identifiers] := by
  unfold acknowledgeStep
  split <;> simp [acknowledgeCalls_append, acknowledgeCalls]

theorem acknowledgeStep_reads (env : Env) (trace : List Event) (identifiers : List String) :
    confirmationReads (acknowledgeStep env trace identifiers).1 = confirmationReads trace := by
  unfold acknowledgeStep
  split <;> simp [confirmationReads_append, confirmationReads, Event.isScanln]

theorem acknowledgeStep_rows (env : Env) (trace : List Event) (identifiers : List String) :
    rowsWritten (acknowledgeStep env trace identifiers).1 = rowsWritten trace := by
  unfold acknowledgeStep
  split <;> simp [rowsWritten_append, rowsWritten]

theorem isSpace_newline : isSpace '\n' = true := by decide

/-- On runes that are not white space up to the first newline, the word and the line end
at the same place. -/
theorem takeWhile_word_eq_line (chars : List Char)
    (h : ∀ c ∈ chars.takeWhile (fun c => decide (c ≠ '\n')), isSpace c = false) :
    chars.takeWhile (fun c => !isSpace c) = chars.takeWhile (fun c => decide (c ≠ '\n')) := by
  induction chars with
  | nil => rfl
  | cons c rest ih =>
    by_cases hc : c = '\n'
    · subst hc
      simp [List.takeWhile, isSpace_newline]
    · have hmem : c ∈ (c :: rest).takeWhile (fun c => decide (c ≠ '\n')) := by
        simp [List.takeWhile, hc]
      have hs : isSpace c = false := h c hmem
      have hcons : (c :: rest).takeWhile (fun c => decide (c ≠ '\n')) =
          c :: rest.takeWhile (fun c => decide (c ≠ '\n')) := by
        simp [List.takeWhile, hc]
      have hrest : ∀ x ∈ rest.takeWhile (fun c => decide (c ≠ '\n')), isSpace x = false := by
        intro x hx
        apply h x
        rw [hcons]
        exact List.mem_cons_of_mem _ hx
      simp [List.takeWhile, hc, hs, ih hrest]

/-- A line without white space is stored whole by `Scanln`. -/
theorem Scanln_eq_firstLine (stdin : String)
    (h : ∀ c ∈ (firstLine stdin).data, isSpace c = false) :
    Scanln stdin = firstLine stdin := by
  have h' : ∀ c ∈ stdin.data.takeWhile (fun c => decide (c ≠ '\n')), isSpace c = false := h
  unfold Scanln firstLine
  rcases hd : stdin.data with _ | ⟨c, rest⟩
  · rfl
  · rw [hd] at h'
    by_cases hc : c = '\n'
    · subst hc
      simp [skipSpace, List.takeWhile]
    · have hmem : c ∈ (c :: rest).takeWhile (fun c => decide (c ≠ '\n')) := by
        simp [List.takeWhile, hc]
      have hs : isSpace c = false := h' c hmem
      simp only [skipSpace, hc, hs, if_false, Bool.false_eq_true]
      rw [takeWhile_word_eq_line (c :: rest) h']

theorem confirmAcknowledge_eq (env : Env) :
    confirmAcknowledge env =
      ([Event.stderr "\n:: Proceed with acknowledge? [Y/n]: ", Event.scanln],
        decide (affirmative (Scanln env.Stdin))) := by
  simp [confirmAcknowledge, affirmative, Bool.or_assoc]

/-- The run stops at the test `!acknowledge || len(identifiers) == 0`. -/
theorem decideStage_stop (env : Env) (acknowledge confirmation : Bool) (trace : List Event)
    (identifiers : List String) (h : acknowledge = false ∨ identifiers = []) :
    decideStage env acknowledge confirmation trace identifiers = (trace, none) := by
  rcases h with h | h <;> simp [decideStage, h]

/-- Past the test, without confirmation. -/
theorem decideStage_noconfirm (env : Env) (trace : List Event) (identifiers : List String)
    (h : identifiers ≠ []) :
    decideStage env true false trace identifiers = acknowledgeStep env trace identifiers := by
  simp [decideStage, h]

/-- Past the test, with confirmation, the answer being a yes. -/
theorem decideStage_yes (env : Env) (trace : List Event) (identifiers : List String)
    (h : identifiers ≠ []) (hy : affirmative (Scanln env.Stdin)) :
    decideStage env true true trace identifiers =
      acknowledgeStep env
        (trace ++ [Event.stderr "\n:: Proceed with acknowledge? [Y/n]: ", Event.scanln])
        identifiers := by
  simp [decideStage, h, confirmAcknowledge_eq, hy]

/-- Past the test, with confirmation, the answer not being a yes. -/
theorem decideStage_no (env : Env) (trace : List Event) (identifiers : List String)
    (h : identifiers ≠ []) (hy : ¬ affirmative (Scanln env.Stdin)) :
    decideStage env true true trace identifiers =
      (trace ++ [Event.stderr "\n:: Proceed with acknowledge? [Y/n]: ", Event.scanln],
        none) := by
  simp [decideStage, h, confirmAcknowledge_eq, hy]

/-- Whatever the stage does, a call of `Acknowledge` in it carries `identifiers`, and the
stage writes no table row. -/
theorem decideStage_calls (env : Env) (acknowledge confirmation : Bool)
    (trace : List Event) (identifiers : List String) (ids : List String)
    (h : ids ∈ acknowledgeCalls (decideStage env acknowledge confirmation trace identifiers).1) :
    ids ∈ acknowledgeCalls trace ∨ ids = identifiers := by
  by_cases hs : acknowledge = false ∨ identifiers = []
  · rw [decideStage_stop env acknowledge confirmation trace identifiers hs] at h
    exact Or.inl h
  · have ha : acknowledge = true := by
      cases acknowledge
      · exact absurd (Or.inl rfl) hs
      · rfl
    have hi : identifiers ≠ [] := fun e => hs (Or.inr e)
    subst ha
    cases confirmation
    · rw [decideStage_noconfirm env trace identifiers hi, acknowledgeStep_calls] at h
      rcases List.mem_append.1 h with h | h
      · exact Or.inl h
      · exact Or.inr (List.mem_singleton.1 h)
    · by_cases hy : affirmative (Scanln env.Stdin)
      · rw [decideStage_yes env trace identifiers hi hy, acknowledgeStep_calls,
          acknowledgeCalls_append, acknowledgeCalls_prompt, List.append_nil] at h
        rcases List.mem_append.1 h with h | h
        · exact Or.inl h
        · exact Or.inr (List.mem_singleton.1 h)
      · rw [decideStage_no env trace identifiers hi hy, acknowledgeCalls_append,
          acknowledgeCalls_prompt, List.append_nil] at h
        exact Or.inl h

theorem decideStage_rows (env : Env) (acknowledge confirmation : Bool)
    (trace : List Event) (identifiers : List String) :
    rowsWritten (decideStage env acknowledge confirmation trace identifiers).1 =
      rowsWritten trace := by
  by_cases hs : acknowledge = false ∨ identifiers = []
  · rw [decideStage_stop env acknowledge confirmation trace identifiers hs]
  · have ha : acknowledge = true := by
      cases acknowledge
      · exact absurd (Or.inl rfl) hs
      · rfl
    have hi : identifiers ≠ [] := fun e => hs (Or.inr e)
    subst ha
    cases confirmation
    · rw [decideStage_noconfirm env trace identifiers hi, acknowledgeStep_rows]
    · by_cases hy : affirmative (Scanln env.Stdin)
      · rw [decideStage_yes env trace identifiers hi hy, acknowledgeStep_rows,
          rowsWritten_append]
        simp [rowsWritten]
      · rw [decideStage_no env trace identifiers hi hy, rowsWritten_append]
        simp [rowsWritten]

/-- Leftover words: the run ends before anything else is looked at. -/
theorem handleTriggers_words (env : Env) (args : Args) (acknowledge noconfirm : Bool)
    (tokens : List String) (word : String) (rest : List String)
    (ha : args "--acknowledge" = Arg.bool acknowledge)
    (ht : args "<pattern>" = Arg.strings tokens)
    (hn : args "--noconfirm" = Arg.bool noconfirm)
    (hw : (env.parseSearchQuery tokens).1 = word :: rest) :
    handleTriggers env args = some ([], some (Error.message
      ("unexpected command line token '" ++ word ++ "', " ++
        "use '/" ++ word ++ "' for searching triggers"))) := by
  rcases hq : env.parseSearchQuery tokens with ⟨words, pattern⟩
  rw [hq] at hw
  simp only at hw
  subst hw
  simp [handleTriggers, ha, ht, hn, Arg.assertBool, Arg.assertStrings, hq]

theorem toArgs_acknowledge (opts : Options) :
    opts.toArgs "--acknowledge" = Arg.bool opts.acknowledge := by
  simp [Options.toArgs]

theorem toArgs_noconfirm (opts : Options) :
    opts.toArgs "--noconfirm" = Arg.bool opts.noconfirm := by
  simp [Options.toArgs]

theorem toArgs_pattern (opts : Options) :
    opts.toArgs "<pattern>" = Arg.strings opts.patternTokens := by
  simp [Options.toArgs]

/-- The query was built but the backend failed. -/
theorem handleTriggers_fetch_failed (env : Env) (opts : Options) (params : Params)
    (err : Error)
    (hw : (env.parseSearchQuery opts.patternTokens).1 = [])
    (hp : parseParams env opts.toArgs = some (params, none))
    (hf : env.GetTriggers params = .error err) :
    handleTriggers env opts.toArgs =
      some ([Event.getTriggers params],
        some (Error.hierr err "can't obtain zabbix triggers")) := by
  rcases hq : env.parseSearchQuery opts.patternTokens with ⟨words, pattern⟩
  rw [hq] at hw
  simp only at hw
  subst hw
  simp only [handleTriggers, hp]
  simp [Options.toArgs, Arg.assertBool, Arg.assertStrings, hq, hf]

/-- The query could not be built. -/
theorem handleTriggers_query_failed (env : Env) (opts : Options) (params : Params)
    (err : Error)
    (hw : (env.parseSearchQuery opts.patternTokens).1 = [])
    (hp : parseParams env opts.toArgs = some (params, some err)) :
    handleTriggers env opts.toArgs = some ([], some err) := by
  rcases hq : env.parseSearchQuery opts.patternTokens with ⟨words, pattern⟩
  rw [hq] at hw
  simp only at hw
  subst hw
  simp only [handleTriggers, hp]
  simp [Options.toArgs, Arg.assertBool, Arg.assertStrings, hq]

/-! ## The query -/

/-- Claim C1: when `--until` is a non-empty string the date parser accepts, `parseParams`
returns no error, the query holds the parsed Unix time under `lastChangeTill`, and it has no
key `lastChangeSince`: nothing is asked about `--since`, which may be absent, empty, a date
or not a date. -/
theorem until_sets_lastChangeTill (env : Env) (opts : Options) (date : Time)
    (hu : Options.text opts.until_ ≠ "")
    (hd : env.ParseDateString (Options.text opts.until_) = .ok date) :
    ∃ params, parseParams env opts.toArgs = some (params, none) ∧
      params.lookup "lastChangeTill" = some (Value.int64 date.Unix) ∧
      params.lookup "lastChangeSince" = none := by
  refine ⟨(flagParams opts).store "lastChangeTill" (Value.int64 date.Unix), ?_, ?_, ?_⟩
  · rw [parseParams_toArgs]
    simp [hu, parseDateTime, hd]
  · exact Params.lookup_store_self _ _ _
  · rw [Params.lookup_store_ne _ _ _ _ (by decide)]
    exact (flagParams_lookup opts).2.2.2.2.2.2.2.2.2

/-- The sample run for C1: `--until 1970-01-02 --since not-a-date`. -/
theorem until_sets_lastChangeTill_witness :
    Options.text bothDatesOptions.until_ ≠ "" ∧
    sampleEnv.ParseDateString (Options.text bothDatesOptions.since) =
      .error (Error.message "unknown date format") ∧
    ∃ params, parseParams sampleEnv bothDatesOptions.toArgs = some (params, none) ∧
      params.lookup "lastChangeTill" = some (Value.int64 86400) ∧
      params.lookup "lastChangeSince" = none :=
  ⟨by decide, rfl,
    until_sets_lastChangeTill sampleEnv bothDatesOptions { Unix := 86400 } (by decide) rfl⟩

/-- Claim C2: when `--until` is empty (or absent) and `--since` is a non-empty string the
date parser accepts, `parseParams` returns no error, the query holds the parsed Unix time
under `lastChangeSince`, and it has no key `lastChangeTill`. -/
theorem since_sets_lastChangeSince (env : Env) (opts : Options) (date : Time)
    (hu : Options.text opts.until_ = "")
    (hs : Options.text opts.since ≠ "")
    (hd : env.ParseDateString (Options.text opts.since) = .ok date) :
    ∃ params, parseParams env opts.toArgs = some (params, none) ∧
      params.lookup "lastChangeSince" = some (Value.int64 date.Unix) ∧
      params.lookup "lastChangeTill" = none := by
  refine ⟨(flagParams opts).store "lastChangeSince" (Value.int64 date.Unix), ?_, ?_, ?_⟩
  · rw [parseParams_toArgs]
    simp [hu, hs, parseDateTime, hd]
  · exact Params.lookup_store_self _ _ _
  · rw [Params.lookup_store_ne _ _ _ _ (by decide)]
    exact (flagParams_lookup opts).2.2.2.2.2.2.2.2.1

/-- The sample run for C2: `--since 1970-01-02`, no `--until`. -/
theorem since_sets_lastChangeSince_witness :
    Options.text sinceOnlyOptions.until_ = "" ∧
    ∃ params, parseParams sampleEnv sinceOnlyOptions.toArgs = some (params, none) ∧
      params.lookup "lastChangeSince" = some (Value.int64 86400) ∧
      params.lookup "lastChangeTill" = none :=
  ⟨by decide,
    since_sets_lastChangeSince sampleEnv sinceOnlyOptions { Unix := 86400 } (by decide)
      (by decide) rfl⟩

/-- Claim C3, as stated, fails: with `--until 1970-01-02 --since not-a-date` the parser
rejects the `--since` value, and `parseParams` returns no error; and with
`--until not-a-date` the error comes together with a map that is not empty. -/
theorem rejected_since_is_not_an_error :
    bothDatesOptions.since = some "not-a-date" ∧
    sampleEnv.ParseDateString "not-a-date" = .error (Error.message "unknown date format") ∧
    (parseParams sampleEnv bothDatesOptions.toArgs).map Prod.snd = some none ∧
    (parseParams sampleEnv badUntilOptions.toArgs).map (fun r => (r.1.keys, r.2)) =
      some (["sortfield", "sortorder", "min_severity", "limit",
          "withLastEventUnacknowledged", "lastChangeTill"],
        some (Error.hierr (Error.message "unknown date format")
          "can't parse datetime 'not-a-date'")) :=
  ⟨by decide, rfl, by decide, by decide⟩

/-- Claim C3, amended: the date that is parsed is `--until` when it is not empty, and
`--since` when `--until` is empty and `--since` is not. When the parser rejects that
value, `parseParams` returns an error that wraps the parser's error and carries the value;
the map returned beside it is not used as a query: `handleTriggers` returns an error
without any call leaving the process. -/
theorem rejected_date_is_an_error (env : Env) (opts : Options) (value : String)
    (cause : Error)
    (hv : (Options.text opts.until_ ≠ "" ∧ value = Options.text opts.until_) ∨
      (Options.text opts.until_ = "" ∧ Options.text opts.since ≠ "" ∧
        value = Options.text opts.since))
    (hd : env.ParseDateString value = .error cause) :
    (∃ params, parseParams env opts.toArgs =
      some (params, some (Error.hierr cause ("can't parse datetime '" ++ value ++ "'")))) ∧
    ∃ err, handleTriggers env opts.toArgs = some ([], some err) := by
  have hparams : ∃ params, parseParams env opts.toArgs =
      some (params, some (Error.hierr cause ("can't parse datetime '" ++ value ++ "'"))) := by
    rcases hv with ⟨hu, rfl⟩ | ⟨hu, hs, rfl⟩
    · refine ⟨(flagParams opts).store "lastChangeTill" (Value.int64 0), ?_⟩
      rw [parseParams_toArgs]
      simp [hu, parseDateTime, hd]
    · refine ⟨(flagParams opts).store "lastChangeSince" (Value.int64 0), ?_⟩
      rw [parseParams_toArgs]
      simp [hu, hs, parseDateTime, hd]
  refine ⟨hparams, ?_⟩
  obtain ⟨params, hp⟩ := hparams
  rcases hq : (env.parseSearchQuery opts.patternTokens).1 with _ | ⟨word, rest⟩
  · exact ⟨_, handleTriggers_query_failed env opts params _ hq hp⟩
  · exact ⟨_, handleTriggers_words env opts.toArgs opts.acknowledge opts.noconfirm
      opts.patternTokens word rest (toArgs_acknowledge opts) (toArgs_pattern opts)
      (toArgs_noconfirm opts) hq⟩

/-- The sample run for C3: `--until not-a-date`. -/
theorem rejected_date_is_an_error_witness :
    sampleEnv.ParseDateString "not-a-date" = .error (Error.message "unknown date format") ∧
    (∃ params, parseParams sampleEnv badUntilOptions.toArgs =
      some (params, some (Error.hierr (Error.message "unknown date format")
        ("can't parse datetime '" ++ "not-a-date" ++ "'")))) ∧
    ∃ err, handleTriggers sampleEnv badUntilOptions.toArgs = some ([], some err) :=
  ⟨rfl,
    rejected_date_is_an_error sampleEnv badUntilOptions "not-a-date"
      (Error.message "unknown date format") (Or.inl ⟨by decide, by decide⟩) rfl⟩

/-- Claim C8: the query always holds `sortfield`, `sortorder`, `min_severity` and `limit`.
`sortfield` is the `--sort` string split on commas: the pieces hold no comma and joined with
a comma they give the string back. The other three are `--order`, `--severity` and the
`--limit` string as given. -/
theorem always_set_keys (env : Env) (opts : Options) :
    ∃ params err, parseParams env opts.toArgs = some (params, err) ∧
      params.lookup "sortfield" = some (Value.strings (Split opts.sort ',')) ∧
      Join (Split opts.sort ',') "," = opts.sort ∧
      (∀ piece ∈ Split opts.sort ',', ',' ∉ piece.data) ∧
      params.lookup "sortorder" = some (Value.string opts.order) ∧
      params.lookup "min_severity" = some (Value.int opts.severity) ∧
      params.lookup "limit" = some (Value.string opts.limit) := by
  have hl := flagParams_lookup opts
  have hj : Join (Split opts.sort ',') "," = opts.sort := Join_Split opts.sort ','
  have hn := Split_not_mem opts.sort ','
  obtain ⟨params, err, hrun, hshape⟩ := parseParams_cases env opts
  refine ⟨params, err, hrun, ?_, hj, hn, ?_, ?_, ?_⟩
  all_goals
    rcases hshape with rfl | ⟨v, rfl⟩ | ⟨v, rfl⟩
    · first | exact hl.1 | exact hl.2.1 | exact hl.2.2.1 | exact hl.2.2.2.1
    · rw [Params.lookup_store_ne _ _ _ _ (by decide)]
      first | exact hl.1 | exact hl.2.1 | exact hl.2.2.1 | exact hl.2.2.2.1
    · rw [Params.lookup_store_ne _ _ _ _ (by decide)]
      first | exact hl.1 | exact hl.2.1 | exact hl.2.2.1 | exact hl.2.2.2.1

/-- Claim C9: each conditional key is in the query exactly when its own flag is set, with
the value `"1"` (for `filter`, the nested map from `value` to `"1"`); the query has no key
outside the four always set, these four, `lastChangeTill` and `lastChangeSince`; and of the
last two at most one is there. -/
theorem conditional_keys (env : Env) (opts : Options) :
    ∃ params err, parseParams env opts.toArgs = some (params, err) ∧
      params.lookup "withLastEventUnacknowledged" =
        (if opts.onlyNack then some (Value.string "1") else none) ∧
      params.lookup "maintenance" =
        (if opts.maintenance then some (Value.string "1") else none) ∧
      params.lookup "only_true" =
        (if opts.recent then some (Value.string "1") else none) ∧
      params.lookup "filter" =
        (if opts.problem then some (Value.params [("value", Value.string "1")]) else none) ∧
      (∀ key, params.lookup key ≠ none →
        key ∈ ["sortfield", "sortorder", "min_severity", "limit",
          "withLastEventUnacknowledged", "maintenance", "only_true", "filter",
          "lastChangeTill", "lastChangeSince"]) ∧
      (params.lookup "lastChangeTill" = none ∨ params.lookup "lastChangeSince" = none) := by
  have hl := flagParams_lookup opts
  have hk : ∀ key, key ∈ (flagParams opts).keys →
      key ∈ ["sortfield", "sortorder", "min_severity", "limit",
        "withLastEventUnacknowledged", "maintenance", "only_true", "filter",
        "lastChangeTill", "lastChangeSince"] := by
    intro key h
    have := flagParams_keys opts key h
    simp only [List.mem_cons, List.mem_singleton, List.not_mem_nil, or_false] at this ⊢
    tauto
  obtain ⟨params, err, hrun, hshape⟩ := parseParams_cases env opts
  refine ⟨params, err, hrun, ?_⟩
  rcases hshape with rfl | ⟨v, rfl⟩ | ⟨v, rfl⟩
  · exact ⟨hl.2.2.2.2.1, hl.2.2.2.2.2.1, hl.2.2.2.2.2.2.1, hl.2.2.2.2.2.2.2.1,
      fun key h => hk key (Params.mem_keys_of_lookup _ _ h), Or.inl hl.2.2.2.2.2.2.2.2.1⟩
  · refine ⟨?_, ?_, ?_, ?_, ?_, Or.inr ?_⟩
    · rw [Params.lookup_store_ne _ _ _ _ (by decide)]; exact hl.2.2.2.2.1
    · rw [Params.lookup_store_ne _ _ _ _ (by decide)]; exact hl.2.2.2.2.2.1
    · rw [Params.lookup_store_ne _ _ _ _ (by decide)]; exact hl.2.2.2.2.2.2.1
    · rw [Params.lookup_store_ne _ _ _ _ (by decide)]; exact hl.2.2.2.2.2.2.2.1
    · intro key h
      rcases Params.keys_store _ _ _ _ (Params.mem_keys_of_lookup _ _ h) with h | h
      · subst h; decide
      · exact hk key h
    · rw [Params.lookup_store_ne _ _ _ _ (by decide)]; exact hl.2.2.2.2.2.2.2.2.2
  · refine ⟨?_, ?_, ?_, ?_, ?_, Or.inl ?_⟩
    · rw [Params.lookup_store_ne _ _ _ _ (by decide)]; exact hl.2.2.2.2.1
    · rw [Params.lookup_store_ne _ _ _ _ (by decide)]; exact hl.2.2.2.2.2.1
    · rw [Params.lookup_store_ne _ _ _ _ (by decide)]; exact hl.2.2.2.2.2.2.1
    · rw [Params.lookup_store_ne _ _ _ _ (by decide)]; exact hl.2.2.2.2.2.2.2.1
    · intro key h
      rcases Params.keys_store _ _ _ _ (Params.mem_keys_of_lookup _ _ h) with h | h
      · subst h; decide
      · exact hk key h
    · rw [Params.lookup_store_ne _ _ _ _ (by decide)]; exact hl.2.2.2.2.2.2.2.2.1

/-! ## The acknowledge workflow -/

/-- Claim C4: when the search tokens leave a literal word, `handleTriggers` returns the usage
error that names the first word and suggests `/word`, and its trace is empty: no call of
`GetTriggers`, none of `Acknowledge`. Of the command line only the three keys read first
are looked at; the others may hold anything, so no query is built. -/
theorem stray_word_is_usage_error (env : Env) (args : Args) (acknowledge noconfirm : Bool)
    (tokens : List String) (word : String) (rest : List String)
    (ha : args "--acknowledge" = Arg.bool acknowledge)
    (ht : args "<pattern>" = Arg.strings tokens)
    (hn : args "--noconfirm" = Arg.bool noconfirm)
    (hw : (env.parseSearchQuery tokens).1 = word :: rest) :
    handleTriggers env args = some ([], some (Error.message
      ("unexpected command line token '" ++ word ++ "', " ++
        "use '/" ++ word ++ "' for searching triggers"))) :=
  handleTriggers_words env args acknowledge noconfirm tokens word rest ha ht hn hw

/-- The sample run for C4: `--acknowledge disk /db`, on a map for which `parseParams`
would panic. -/
theorem stray_word_is_usage_error_witness :
    (sampleEnv.parseSearchQuery ["disk", "/db"]).1 = ["disk"] ∧
    parseParams sampleEnv strayWordArgs = none ∧
    handleTriggers sampleEnv strayWordArgs = some ([], some (Error.message
      "unexpected command line token 'disk', use '/disk' for searching triggers")) :=
  ⟨by decide, rfl,
    stray_word_is_usage_error sampleEnv strayWordArgs true false ["disk", "/db"] "disk" []
      rfl rfl rfl (by decide)⟩

/-- Claim C5: in a run that reaches the test after the flush (no leftover word, query
built, triggers fetched, table flushed), if `--acknowledge` was not given or the MatchSet is
empty, then `Acknowledge` is not called, no confirmation is read, and `handleTriggers`
returns `nil`. -/
theorem nothing_to_acknowledge (env : Env) (opts : Options) (params : Params)
    (triggers : List Trigger)
    (hw : (env.parseSearchQuery opts.patternTokens).1 = [])
    (hp : parseParams env opts.toArgs = some (params, none))
    (hf : env.GetTriggers params = .ok triggers)
    (hflush : env.Flush
      (loopRows env (env.parseSearchQuery opts.patternTokens).2 triggers) = none)
    (h : opts.acknowledge = false ∨
      matchSet env (env.parseSearchQuery opts.patternTokens).2 triggers = []) :
    ∃ trace, handleTriggers env opts.toArgs = some (trace, none) ∧
      acknowledgeCalls trace = [] ∧ confirmationReads trace = 0 := by
  have hrun := handleTriggers_fetched env opts params triggers hw hp hf
  simp only [loopRows, matchSet] at hflush h
  rw [hflush] at hrun
  simp only at hrun
  rw [decideStage_stop env _ _ _ _ h] at hrun
  exact ⟨_, hrun, renderTrace_acknowledgeCalls _ _ _, renderTrace_confirmationReads _ _ _⟩

/-- The sample run for C5: `--acknowledge --noconfirm /zz`, where no trigger matches. -/
theorem nothing_to_acknowledge_witness :
    noMatchOptions.acknowledge = true ∧
    matchSet sampleEnv (sampleEnv.parseSearchQuery noMatchOptions.patternTokens).2
      sampleTriggers = [] ∧
    ∃ trace, handleTriggers sampleEnv noMatchOptions.toArgs = some (trace, none) ∧
      acknowledgeCalls trace = [] ∧ confirmationReads trace = 0 :=
  ⟨rfl, by decide,
    nothing_to_acknowledge sampleEnv noMatchOptions (flagParams noMatchOptions)
      sampleTriggers (by decide) rfl rfl rfl (Or.inr (by decide))⟩

/-- Claim C6, as stated, fails, in two ways. With `--acknowledge --noconfirm`, three triggers
fetched and all of them in the MatchSet, a failing flush of the table ends the run with that
error and `Acknowledge` is not called. And with `--acknowledge /db` and confirmation, the
lines `y n` and ` y` are neither empty nor `Y` nor `y`, yet `Acknowledge` is called: `Scanln`
stores the word `y`. -/
theorem failed_flush_skips_acknowledge :
    (forcedAcknowledgeOptions.acknowledge = true ∧
      forcedAcknowledgeOptions.noconfirm = true ∧
      closedOutputEnv.GetTriggers (flagParams forcedAcknowledgeOptions) = .ok sampleTriggers ∧
      matchSet closedOutputEnv
        (closedOutputEnv.parseSearchQuery forcedAcknowledgeOptions.patternTokens).2
        sampleTriggers = ["101", "102", "101"] ∧
      (handleTriggers closedOutputEnv forcedAcknowledgeOptions.toArgs).map
          (fun r => (acknowledgeCalls r.1, r.2)) =
        some ([], some (Error.message "write /dev/stdout: broken pipe"))) ∧
    (acknowledgeOptions.acknowledge = true ∧ acknowledgeOptions.noconfirm = false ∧
      firstLine twoWordsEnv.Stdin = "y n" ∧
      (handleTriggers twoWordsEnv acknowledgeOptions.toArgs).map
          (fun r => (acknowledgeCalls r.1, confirmationReads r.1, r.2)) =
        some ([["101", "101"]], 1, none) ∧
      firstLine leadingBlankEnv.Stdin = " y" ∧
      (handleTriggers leadingBlankEnv acknowledgeOptions.toArgs).map
          (fun r => (acknowledgeCalls r.1, confirmationReads r.1, r.2)) =
        some ([["101", "101"]], 1, none)) :=
  ⟨⟨rfl, rfl, rfl, by decide, by decide⟩,
    ⟨rfl, rfl, by decide, by decide, by decide, by decide⟩⟩

/-- Claim C6, amended: in a run that reaches the test after the flush (no leftover word,
query built, triggers fetched, table flushed) with `--acknowledge` and a non-empty MatchSet:
without `--noconfirm`, one confirmation is read, and when the line typed holds no white
space, `Acknowledge` is called exactly when that line is empty, `Y` or `y`, and for any
other such line `Acknowledge` is not called and `handleTriggers` returns `nil`; with
`--noconfirm`, `Acknowledge` is called and nothing is read. -/
theorem confirmation_gates_acknowledge (env : Env) (opts : Options) (params : Params)
    (triggers : List Trigger)
    (hw : (env.parseSearchQuery opts.patternTokens).1 = [])
    (hp : parseParams env opts.toArgs = some (params, none))
    (hf : env.GetTriggers params = .ok triggers)
    (hflush : env.Flush
      (loopRows env (env.parseSearchQuery opts.patternTokens).2 triggers) = none)
    (ha : opts.acknowledge = true)
    (hm : matchSet env (env.parseSearchQuery opts.patternTokens).2 triggers ≠ []) :
    ∃ trace result, handleTriggers env opts.toArgs = some (trace, result) ∧
      (opts.noconfirm = false →
        confirmationReads trace = 1 ∧
        ((∀ c ∈ (firstLine env.Stdin).data, isSpace c = false) →
          (acknowledgeCalls trace ≠ [] ↔
            (firstLine env.Stdin = "" ∨ firstLine env.Stdin = "Y" ∨
              firstLine env.Stdin = "y")) ∧
          (¬ (firstLine env.Stdin = "" ∨ firstLine env.Stdin = "Y" ∨
              firstLine env.Stdin = "y") →
            acknowledgeCalls trace = [] ∧ result = none))) ∧
      (opts.noconfirm = true →
        acknowledgeCalls trace ≠ [] ∧ confirmationReads trace = 0) := by
  have hrun := handleTriggers_fetched env opts params triggers hw hp hf
  simp only [loopRows, matchSet] at hflush hm
  rw [hflush, ha] at hrun
  simp only at hrun
  cases hn : opts.noconfirm
  · rw [hn] at hrun
    by_cases hy : affirmative (Scanln env.Stdin)
    · rw [show (!false) = true from rfl, decideStage_yes env _ _ hm hy] at hrun
      refine ⟨(acknowledgeStep env _ _).1, (acknowledgeStep env _ _).2, hrun,
        fun _ => ⟨?_, fun hline => ?_⟩, fun h => Bool.noConfusion h⟩
      · rw [acknowledgeStep_reads, confirmationReads_append, renderTrace_confirmationReads]
        rfl
      · rw [Scanln_eq_firstLine env.Stdin hline] at hy
        rw [acknowledgeStep_calls]
        exact ⟨⟨fun _ => hy, fun _ => by simp⟩, fun hno => absurd hy hno⟩
    · rw [show (!false) = true from rfl, decideStage_no env _ _ hm hy] at hrun
      refine ⟨_, _, hrun, fun _ => ⟨?_, fun hline => ?_⟩, fun h => Bool.noConfusion h⟩
      · rw [confirmationReads_append, renderTrace_confirmationReads]
        rfl
      · rw [Scanln_eq_firstLine env.Stdin hline] at hy
        rw [acknowledgeCalls_append, renderTrace_acknowledgeCalls, acknowledgeCalls_prompt]
        exact ⟨⟨fun h => absurd rfl h, fun h => absurd h hy⟩, fun _ => ⟨rfl, rfl⟩⟩
  · rw [hn] at hrun
    rw [show (!true) = false from rfl, decideStage_noconfirm env _ _ hm] at hrun
    refine ⟨(acknowledgeStep env _ _).1, (acknowledgeStep env _ _).2, hrun,
      fun h => Bool.noConfusion h, fun _ => ⟨?_, ?_⟩⟩
    · rw [acknowledgeStep_calls]
      simp
    · rw [acknowledgeStep_reads, renderTrace_confirmationReads]

/-- The sample run for C6: `--acknowledge /db`, the user types `n`. -/
theorem confirmation_gates_acknowledge_witness :
    firstLine decliningEnv.Stdin = "n" ∧
    matchSet decliningEnv (decliningEnv.parseSearchQuery acknowledgeOptions.patternTokens).2
      sampleTriggers = ["101", "101"] ∧
    ∃ trace result, handleTriggers decliningEnv acknowledgeOptions.toArgs =
        some (trace, result) ∧
      (acknowledgeOptions.noconfirm = false →
        confirmationReads trace = 1 ∧
        ((∀ c ∈ (firstLine decliningEnv.Stdin).data, isSpace c = false) →
          (acknowledgeCalls trace ≠ [] ↔
            (firstLine decliningEnv.Stdin = "" ∨ firstLine decliningEnv.Stdin = "Y" ∨
              firstLine decliningEnv.Stdin = "y")) ∧
          (¬ (firstLine decliningEnv.Stdin = "" ∨ firstLine decliningEnv.Stdin = "Y" ∨
              firstLine decliningEnv.Stdin = "y") →
            acknowledgeCalls trace = [] ∧ result = none))) ∧
      (acknowledgeOptions.noconfirm = true →
        acknowledgeCalls trace ≠ [] ∧ confirmationReads trace = 0) :=
  ⟨by decide, by decide,
    confirmation_gates_acknowledge decliningEnv acknowledgeOptions
      (flagParams acknowledgeOptions) sampleTriggers (by decide) rfl rfl rfl rfl
      (by decide)⟩

/-- Claim C7: in any run, an identifier list passed to `Acknowledge` is the list of
`LastEvent.ID` of the fetched triggers, in fetched order and with repetitions, for which the
pattern is empty or `matchPattern` accepts the trigger's `String()`; with an empty pattern
it is the identifier of every fetched trigger; and it is as long as the list of table rows
written. -/
theorem acknowledge_receives_match_set (env : Env) (opts : Options) (params : Params)
    (triggers : List Trigger) (trace : List Event) (result : Option Error)
    (identifiers : List String)
    (hp : parseParams env opts.toArgs = some (params, none))
    (hf : env.GetTriggers params = .ok triggers)
    (hrun : handleTriggers env opts.toArgs = some (trace, result))
    (hcall : identifiers ∈ acknowledgeCalls trace) :
    identifiers = (triggers.filter (fun trigger =>
        decide ((env.parseSearchQuery opts.patternTokens).2 = "") ||
          env.matchPattern (env.parseSearchQuery opts.patternTokens).2 trigger.String)).map
        Trigger.LastEventID ∧
      ((env.parseSearchQuery opts.patternTokens).2 = "" →
        identifiers = triggers.map Trigger.LastEventID) ∧
      identifiers.length = (rowsWritten trace).length := by
  rcases hq : (env.parseSearchQuery opts.patternTokens).1 with _ | ⟨word, rest⟩
  · have h := handleTriggers_fetched env opts params triggers hq hp hf
    rw [hrun] at h
    have h := Option.some.inj h
    have hloop := filterLoop_eq env (env.parseSearchQuery opts.patternTokens).2 triggers [] []
    simp only [List.nil_append] at hloop
    cases hflush : env.Flush
        (filterLoop env (env.parseSearchQuery opts.patternTokens).2 triggers ([], [])).1 with
    | some err =>
      rw [hflush] at h
      have ht : trace = _ := congrArg Prod.fst h
      rw [ht] at hcall
      simp only [renderTrace_acknowledgeCalls] at hcall
      exact absurd hcall (List.not_mem_nil _)
    | none =>
      rw [hflush] at h
      have ht : trace = _ := congrArg Prod.fst h
      rw [ht] at hcall ⊢
      rcases decideStage_calls _ _ _ _ _ _ hcall with hc | hc
      · rw [renderTrace_acknowledgeCalls] at hc
        exact absurd hc (List.not_mem_nil _)
      · rw [decideStage_rows, renderTrace_rowsWritten, hc, hloop]
        refine ⟨rfl, ?_, by simp⟩
        intro he
        simp [he]
  · have h := handleTriggers_words env opts.toArgs opts.acknowledge opts.noconfirm
      opts.patternTokens word rest (toArgs_acknowledge opts) (toArgs_pattern opts)
      (toArgs_noconfirm opts) hq
    rw [hrun] at h
    have ht : trace = [] := congrArg Prod.fst (Option.some.inj h)
    rw [ht] at hcall
    exact absurd hcall (List.not_mem_nil _)

/-- The sample run for C7: `--acknowledge /db`, the user types `y`; the two `db` triggers
share the event identifier `101`, which is passed twice. -/
theorem acknowledge_receives_match_set_witness :
    ["101", "101"] ∈ acknowledgeCalls sampleRun ∧
    ["101", "101"] = (sampleTriggers.filter (fun trigger =>
        decide ((sampleEnv.parseSearchQuery acknowledgeOptions.patternTokens).2 = "") ||
          sampleEnv.matchPattern (sampleEnv.parseSearchQuery acknowledgeOptions.patternTokens).2
            trigger.String)).map Trigger.LastEventID ∧
      ((sampleEnv.parseSearchQuery acknowledgeOptions.patternTokens).2 = "" →
        ["101", "101"] = sampleTriggers.map Trigger.LastEventID) ∧
      ["101", "101"].length = (rowsWritten sampleRun).length :=
  ⟨by decide,
    acknowledge_receives_match_set sampleEnv acknowledgeOptions (flagParams acknowledgeOptions)
      sampleTriggers sampleRun none ["101", "101"] rfl rfl rfl (by decide)⟩

/-- Claim C10, as stated, fails: when the backend cannot be reached, the error returned
carries the message `can't obtain zabbix triggers`, not `can't obtain triggers`. -/
theorem fetch_error_message_differs :
    unreachableEnv.GetTriggers (flagParams sampleOptions) =
      .error (Error.message "connection refused") ∧
    (handleTriggers unreachableEnv sampleOptions.toArgs).map Prod.snd =
      some (some (Error.hierr (Error.message "connection refused")
        "can't obtain zabbix triggers")) ∧
    (handleTriggers unreachableEnv sampleOptions.toArgs).map Prod.snd ≠
      some (some (Error.hierr (Error.message "connection refused")
        "can't obtain triggers")) :=
  ⟨rfl, by decide, by decide⟩

/-- Claim C10, amended: when the query is built and `GetTriggers` fails, `handleTriggers`
returns the backend's error wrapped with the message `can't obtain zabbix triggers`; the
trace is the one call of `GetTriggers`: no table row is written and `Acknowledge` is not
called. -/
theorem fetch_failure_is_wrapped (env : Env) (opts : Options) (params : Params)
    (cause : Error)
    (hw : (env.parseSearchQuery opts.patternTokens).1 = [])
    (hp : parseParams env opts.toArgs = some (params, none))
    (hf : env.GetTriggers params = .error cause) :
    ∃ trace, handleTriggers env opts.toArgs =
        some (trace, some (Error.hierr cause "can't obtain zabbix triggers")) ∧
      trace = [Event.getTriggers params] ∧
      rowsWritten trace = [] ∧ acknowledgeCalls trace = [] :=
  ⟨_, handleTriggers_fetch_failed env opts params cause hw hp hf, rfl, rfl, rfl⟩

/-- The sample run for C10: a plain listing against a backend that cannot be reached. -/
theorem fetch_failure_is_wrapped_witness :
    ∃ trace, handleTriggers unreachableEnv sampleOptions.toArgs =
        some (trace, some (Error.hierr (Error.message "connection refused")
          "can't obtain zabbix triggers")) ∧
      trace = [Event.getTriggers (flagParams sampleOptions)] ∧
      rowsWritten trace = [] ∧ acknowledgeCalls trace = [] :=
  fetch_failure_is_wrapped unreachableEnv sampleOptions (flagParams sampleOptions)
    (Error.message "connection refused") (by decide) rfl rfl

end Zabbixctl
